import Mathlib

/-!
Verification of the kidsnews user-manager clients.

The development shallowly embeds the parts of
`src/user_manager/user_manager.js` (custom-backend variant) and
`src/user_manager/user_manager_supabase.js` (Supabase variant) that the
specification talks about.

Modelling conventions:
* `localStorage` (and `sessionStorage`) is an association list from keys to
  string values, read through `lsGet`; `setItem` / `removeItem` / `clear`
  become `lsSet` / `lsRemove` / the empty list.
* The Supabase table `magic_links` is a list of rows; the query
  `select.eq(token).limit(1)` is `findByToken` (first matching row) and
  `delete().eq(token)` is `deleteByToken` (removes every matching row).
* Timestamps are integers (milliseconds since the epoch, as produced by
  `Date.now()`); `new Date(a) < new Date(b)` is integer `<`.
* JSON numbers are modelled as exact rationals; `JSON.stringify` and
  `JSON.parse` are browser built-ins and enter as explicit function
  arguments.
* Asynchronous network effects are passed in as explicit outcome values;
  a thrown JS error becomes an `Except.error` or an explicit outcome
  constructor.
* JS truthiness of a nullable string (`null`, `''` falsy) is `strTruthy`.
-/

namespace KidsNews

/-! ## localStorage model -/

/-- A browser `localStorage` (or `sessionStorage`) snapshot: key/value pairs. -/
abbrev Store := List (String × String)

/-- `localStorage.getItem k` : the value of the first entry with key `k`. -/
def lsGet : Store → String → Option String
  | [], _ => none
  | (k', v) :: rest, k => if k' = k then some v else lsGet rest k

/-- `localStorage.setItem k v` : `k` now maps to `v`, all other keys keep
their values. -/
def lsSet (s : Store) (k v : String) : Store :=
  (k, v) :: s.filter (fun e => e.1 ≠ k)

/-- `localStorage.removeItem k`. -/
def lsRemove (s : Store) (k : String) : Store :=
  s.filter (fun e => e.1 ≠ k)

/-- JS truthiness of `localStorage.getItem`'s result: `null` and the empty
string are falsy. -/
def strTruthy : Option String → Bool
  | none => false
  | some s => s ≠ ""

/-- `String.prototype.startsWith` on the character lists. -/
def jsStartsWith (s p : String) : Bool :=
  p.data.isPrefixOf s.data

/-! ## Magic links (`user_manager_supabase.js`) -/

/-- A row of the Supabase `magic_links` table, as inserted by
`sendCustomMagicLink`. -/
structure MagicLinkRow where
  token : String
  email : String
  reading_style : String
  expires_at : Int
  deriving DecidableEq, Repr

/-- The `magic_links` table. -/
abbrev MagicLinksTable := List MagicLinkRow

/-- `supabase.from('magic_links').select('*').eq('token', t).limit(1)` :
the first stored row whose token is `t`, if any. -/
def findByToken : MagicLinksTable → String → Option MagicLinkRow
  | [], _ => none
  | r :: rest, t => if r.token = t then some r else findByToken rest t

/-- `supabase.from('magic_links').delete().eq('token', t)` : removes every
row whose token is `t`. -/
def deleteByToken (db : MagicLinksTable) (t : String) : MagicLinksTable :=
  db.filter (fun r => r.token ≠ t)

/-- The two errors `verifyMagicLink` can throw. -/
inductive VerifyError where
  | invalidOrExpired
  | expired
  deriving DecidableEq, Repr

/-- The JS `Error` message attached to each `VerifyError`. -/
def verifyErrorMessage : VerifyError → String
  | .invalidOrExpired => "Invalid or expired magic link"
  | .expired => "Magic link has expired"

/-- `verifyMagicLink(token)` from `user_manager_supabase.js`: look the token
up in `magic_links`; throw `'Invalid or expired magic link'` when no row
matches; when the matched row's `expires_at` is before `now`, delete it and
throw `'Magic link has expired'`; otherwise sign the user in and delete the
used token.  The result carries the matched row and the resulting
`magic_links` table; an error carries the resulting table as well. -/
def verifyMagicLink (db : MagicLinksTable) (token : String) (now : Int) :
    Except (VerifyError × MagicLinksTable) (MagicLinkRow × MagicLinksTable) :=
  match findByToken db token with
  | none => .error (.invalidOrExpired, db)
  | some row =>
    if row.expires_at < now then
      .error (.expired, deleteByToken db token)
    else
      .ok (row, deleteByToken db token)

/-! ## Token generation and magic-link creation -/

/-- The 62-character alphabet of `generateRandomToken`
 (`const chars = 'ABC…xyz0123456789'` in the source). -/
def tokenChars : List Char :=
  "ABCDEFGHIJKLMNOPQRSTUVWXYZabcdefghijklmnopqrstuvwxyz0123456789".data

/-- `generateRandomToken(length)` from `user_manager_supabase.js`.  The
`crypto.getRandomValues`-filled `Uint8Array(length)` is passed in as
`array`; position `i` of the token is `chars[array[i] % chars.length]`. -/
def generateRandomToken (length : Nat) (array : List Nat) : String :=
  String.mk ((List.range length).map
    (fun i => tokenChars.getD (array.getD i 0 % tokenChars.length) 'A'))

/-- The expiry window of `sendCustomMagicLink`:
`new Date(Date.now() + 15 * 60 * 1000)`. -/
def fifteenMinutesMs : Int := 15 * 60 * 1000

/-- `sendCustomMagicLink(email)` from `user_manager_supabase.js`, restricted
to its effect on the `magic_links` table: generate a 32-character token,
insert one row `(token, email, reading_style, expires_at = now + 15min)`.
The random bytes of the token, the manager's current `readingStyle` and
`Date.now()` are explicit arguments; the subsequent e-mail `fetch` does not
touch the table. -/
def sendCustomMagicLink (db : MagicLinksTable) (randomBytes : List Nat)
    (email readingStyle : String) (now : Int) : String × MagicLinksTable :=
  let token := generateRandomToken 32 randomBytes
  let expiresAt := now + fifteenMinutesMs
  (token,
   db ++ [{ token := token, email := email, reading_style := readingStyle,
            expires_at := expiresAt }])

/-! ## Device id (`user_manager.js`, `ensureDeviceId`) -/

/-- Outcome of `fetch(apiBase + '/device/generate')` followed by
`response.json()`: either a parsed body with its `success` flag and
optional `device_id` field, or a thrown error (network failure or invalid
JSON), which the source catches. -/
inductive FetchOutcome where
  | ok (success : Bool) (device_id : Option String)
  | thrown
  deriving DecidableEq, Repr

/-- `ensureDeviceId()` from `user_manager.js`.  Reads
`localStorage.getItem('news_device_id')`; when that value is falsy it
issues the network request (modelled by `outcome`) and stores either the
server-provided id (when `data.success && data.device_id`) or, when the
request throws, a locally generated `news-local-…` id whose random part is
`localSuffix`.  Returns the updated store and whether a network request was
issued. -/
def ensureDeviceId (store : Store) (outcome : FetchOutcome)
    (localSuffix : String) : Store × Bool :=
  if strTruthy (lsGet store "news_device_id") then
    (store, false)
  else
    match outcome with
    | .ok success did =>
      if success && strTruthy did then
        (lsSet store "news_device_id" (did.getD ""), true)
      else
        (store, true)
    | .thrown =>
      (lsSet store "news_device_id" ("news-local-" ++ localSuffix), true)

/-! ## Stats (`loadStats` / `saveStats` / `trackQuizCompletion`) -/

/-- JSON values; numbers are exact rationals. -/
inductive Json where
  | null
  | bool (b : Bool)
  | num (q : ℚ)
  | str (s : String)
  | arr (elems : List Json)
  | obj (fields : List (String × Json))

/-- JS truthiness of a JSON value (`this.stats || …`). -/
def jsTruthyJson : Json → Bool
  | .null => false
  | .bool b => b
  | .num q => decide (q ≠ 0)
  | .str s => s ≠ ""
  | .arr _ => true
  | .obj _ => true

/-- `loadStats()` from `user_manager.js`:
`statsJson ? JSON.parse(statsJson) : \x7b\x7d` with no try/catch, so a
parse failure (`parse _ = none`) propagates as a thrown error (`none`). -/
def loadStats (parse : String → Option Json) (store : Store) : Option Json :=
  match lsGet store "news_stats" with
  | none => some (Json.obj [])
  | some s => if s = "" then some (Json.obj []) else parse s

/-- `saveStats()` from `user_manager.js`:
`localStorage.setItem('news_stats', JSON.stringify(this.stats))`. -/
def saveStats (stringify : Json → String) (store : Store) (stats : Json) :
    Store :=
  lsSet store "news_stats" (stringify stats)

/-- `loadStats()` from `user_manager_supabase.js`: same lookup, but a parse
failure is caught and replaced by the empty object. -/
def loadStatsSupabase (parse : String → Option Json) (store : Store) : Json :=
  match lsGet store "news_stats" with
  | none => Json.obj []
  | some s => if s = "" then Json.obj [] else (parse s).getD (Json.obj [])

/-- `saveStats()` from `user_manager_supabase.js`:
`localStorage.setItem('news_stats', JSON.stringify(this.stats || \x7b\x7d))`. -/
def saveStatsSupabase (stringify : Json → String) (store : Store)
    (stats : Json) : Store :=
  lsSet store "news_stats"
    (stringify (if jsTruthyJson stats then stats else Json.obj []))

/-- `Math.round` on an exact rational: round to nearest, halves toward
positive infinity. -/
def jsRound (q : ℚ) : Int :=
  ⌊q + 1 / 2⌋

/-- JS object property assignment `o[k] = v`: overwrite in place, append a
new key at the end. -/
def objSet : List (String × Json) → String → Json → List (String × Json)
  | [], k, v => [(k, v)]
  | (k', v') :: rest, k, v =>
    if k' = k then (k, v) :: rest else (k', v') :: objSet rest k v

/-- JS object property read `o[k]`. -/
def objGet : List (String × Json) → String → Option Json
  | [], _ => none
  | (k', v') :: rest, k => if k' = k then some v' else objGet rest k

/-- The stats key used by `trackQuizCompletion`. -/
def quizKey (articleId : String) : String :=
  "quiz_" ++ articleId

/-- `trackQuizCompletion(articleId, score, total)` from `user_manager.js`:
`this.stats['quiz_' + articleId] = (score, total,
Math.round((score / total) * 100), Date.now())`, followed by `saveStats()`.
`this.stats` is the `stats` argument (an object in every reachable state;
other JSON values are returned untouched), `Date.now()` is `nowMs`. -/
def trackQuizCompletion (stringify : Json → String) (store : Store)
    (stats : Json) (articleId : String) (score total nowMs : ℚ) :
    Json × Store :=
  match stats with
  | .obj fields =>
    let record := Json.obj
      [ ("score", Json.num score)
      , ("total", Json.num total)
      , ("percentage", Json.num (jsRound (score / total * 100)))
      , ("timestamp", Json.num nowMs) ]
    let stats' := Json.obj (objSet fields (quizKey articleId) record)
    (stats', saveStats stringify store stats')
  | s => (s, store)

/-! ## Account deletion and logout (`user_manager.js`) -/

/-- The `Object.keys(localStorage)` sweep shared by `deleteSubscription` and
`logout`: a key is removed when it starts with `word_`, `quiz_` or
`article_read_`. -/
def statsKeyPred (k : String) : Bool :=
  jsStartsWith k "word_" || jsStartsWith k "quiz_" || jsStartsWith k "article_read_"

/-- The localStorage cleanup on `deleteSubscription`'s success path
(`response.ok && data.success`): `removeItem` of the five un-prefixed keys,
then removal of every `word_` / `quiz_` / `article_read_` key. -/
def deleteSubscriptionClear (store : Store) : Store :=
  let s1 := lsRemove store "user_id"
  let s2 := lsRemove s1 "bootstrap_token"
  let s3 := lsRemove s2 "user_name"
  let s4 := lsRemove s3 "reading_style"
  let s5 := lsRemove s4 "device_id"
  s5.filter (fun e => !statsKeyPred e.1)

/-- The identity fields of `UserManager` (custom-backend variant). -/
structure UserState where
  userId : Option String
  userToken : Option String
  userName : Option String
  readingStyle : String
  deviceId : Option String

/-- `x || d` for a nullable string `x` and default `d`. -/
def jsOrDefault (v : Option String) (d : String) : String :=
  match v with
  | none => d
  | some s => if s = "" then d else s

/-- `loadUserData()` from `user_manager.js`: read the five `news_…` keys,
with `localStorage.getItem('news_reading_style') || 'enjoy'` as the
reading style. -/
def loadUserData (store : Store) : UserState :=
  { userId := lsGet store "news_user_id"
  , userToken := lsGet store "news_user_token"
  , userName := lsGet store "news_user_name"
  , readingStyle := jsOrDefault (lsGet store "news_reading_style") "enjoy"
  , deviceId := lsGet store "news_device_id" }

/-- `isRegistered()` from `user_manager.js`:
`!!(this.userId && this.userToken)`. -/
def isRegistered (u : UserState) : Bool :=
  strTruthy u.userId && strTruthy u.userToken

/-- The fields of `SupabaseUserManager` set by its constructor. -/
structure SupabaseManagerState where
  user : Option String
  profile : Option String
  readingStyle : String
  stats : Json

/-- The state built by the `SupabaseUserManager` constructor, before
`init()` runs: `user = null`, `profile = null`, `readingStyle = 'enjoy'`,
`stats = \x7b\x7d`. -/
def supabaseConstructorState : SupabaseManagerState :=
  { user := none, profile := none, readingStyle := "enjoy",
    stats := Json.obj [] }

/-- `logout()` from `user_manager.js`, on the storage pair
(localStorage, sessionStorage).  When the `confirm` dialog is accepted:
`localStorage.clear(); sessionStorage.clear()`, then the residual
`removeItem('language')`, `sessionStorage.removeItem('pendingLevel')` and
the stats-key sweep (all no-ops on the already-empty stores).  When the
dialog is cancelled nothing is touched. -/
def logout (confirmed : Bool) (localStore sessionStore : Store) :
    Store × Store :=
  if confirmed then
    let l1 : Store := []
    let s1 : Store := []
    let l2 := lsRemove l1 "language"
    let s2 := lsRemove s1 "pendingLevel"
    let l3 := l2.filter (fun e => !statsKeyPred e.1)
    (l3, s2)
  else
    (localStore, sessionStore)

/-! ## Helper lemmas -/

theorem lsGet_lsSet_same (s : Store) (k v : String) :
    lsGet (lsSet s k v) k = some v := by
  simp [lsSet, lsGet]

theorem lsGet_filter_of_pred_true (s : Store) (p : String → Bool) (k : String)
    (h : p k = true) :
    lsGet (s.filter (fun e => p e.1)) k = lsGet s k := by
  induction s with
  | nil => rfl
  | cons e rest ih =>
    simp only [List.filter]
    by_cases hk : e.1 = k
    · rw [hk, h]
      simp [lsGet, hk]
    · cases hp : p e.1 <;> simp [lsGet, hk, ih]

theorem lsGet_lsRemove_ne (s : Store) (k k' : String) (h : k' ≠ k) :
    lsGet (lsRemove s k) k' = lsGet s k' := by
  have := lsGet_filter_of_pred_true s (fun x => decide (x ≠ k)) k' (by simp [h])
  simpa [lsRemove] using this

theorem findByToken_deleteByToken (db : MagicLinksTable) (t : String) :
    findByToken (deleteByToken db t) t = none := by
  induction db with
  | nil => rfl
  | cons r rest ih =>
    by_cases h : r.token = t
    · simp [deleteByToken, List.filter, h] at ih ⊢
      exact ih
    · simp [deleteByToken, List.filter, h, findByToken] at ih ⊢
      exact ih

theorem mem_deleteByToken_ne (db : MagicLinksTable) (t : String)
    (r : MagicLinkRow) (h : r ∈ deleteByToken db t) : r.token ≠ t := by
  simp [deleteByToken, List.mem_filter] at h
  simpa using h.2

theorem findByToken_append_fresh (db : MagicLinksTable) (r : MagicLinkRow)
    (t : String) (hfresh : ∀ r' ∈ db, r'.token ≠ t) (hr : r.token = t) :
    findByToken (db ++ [r]) t = some r := by
  induction db with
  | nil => simp [findByToken, hr]
  | cons x rest ih =>
    have hx : x.token ≠ t := hfresh x (by simp)
    simp [findByToken, hx]
    exact ih (fun r' hmem => hfresh r' (by simp [hmem]))

theorem tokenChars_length : tokenChars.length = 62 := by decide

theorem getD_mem {α : Type} (l : List α) (i : Nat) (d : α)
    (h : i < l.length) : l.getD i d ∈ l := by
  rw [List.getD_eq_getElem l d h]
  exact List.getElem_mem h

theorem generateRandomToken_length (n : Nat) (array : List Nat) :
    (generateRandomToken n array).length = n := by
  simp [generateRandomToken, String.length]

theorem generateRandomToken_chars (n : Nat) (array : List Nat) (c : Char)
    (hc : c ∈ (generateRandomToken n array).data) : c ∈ tokenChars := by
  simp only [generateRandomToken, String.data, List.mem_map] at hc
  obtain ⟨i, _, rfl⟩ := hc
  exact getD_mem _ _ _ (Nat.mod_lt _ (by decide))

/-! ## Claim theorems -/

/-- C1: Single-use consumption of magic links: for every token `t`, when
`verifyMagicLink t` completes successfully it deletes the `magic_links` row
whose token equals `t`, so a subsequent call `verifyMagicLink t` finds no
stored row and throws `'Invalid or expired magic link'`. -/
theorem verifyMagicLink_single_use (db : MagicLinksTable) (t : String)
    (now now' : Int) (row : MagicLinkRow) (db' : MagicLinksTable)
    (h : verifyMagicLink db t now = .ok (row, db')) :
    (∀ r ∈ db', r.token ≠ t) ∧
    findByToken db' t = none ∧
    verifyMagicLink db' t now' = .error (.invalidOrExpired, db') := by
  simp only [verifyMagicLink] at h
  split at h
  · simp at h
  next r hf =>
    by_cases hexp : r.expires_at < now
    · rw [if_pos hexp] at h; simp at h
    · rw [if_neg hexp] at h
      simp only [Except.ok.injEq, Prod.mk.injEq] at h
      obtain ⟨-, hdb⟩ := h
      subst hdb
      refine ⟨fun r' hr' => mem_deleteByToken_ne db t r' hr', ?_, ?_⟩
      · exact findByToken_deleteByToken db t
      · simp [verifyMagicLink, findByToken_deleteByToken db t]

theorem verifyMagicLink_single_use_witness :
    (∀ r ∈ ([] : MagicLinksTable), r.token ≠ "t") ∧
    findByToken [] "t" = none ∧
    verifyMagicLink [] "t" 5 = .error (.invalidOrExpired, []) :=
  verifyMagicLink_single_use [⟨"t", "e", "enjoy", 10⟩] "t" 0 5
    ⟨"t", "e", "enjoy", 10⟩ [] rfl

/-- C2: Error behavior of magic-link verification: `verifyMagicLink t`
throws exactly when either no `magic_links` row with token `t` exists
(error `'Invalid or expired magic link'`, with the stored rows left
unchanged) or the matched row's `expires_at` is strictly earlier than the
current time (error `'Magic link has expired'`, after first deleting that
expired row). -/
theorem verifyMagicLink_error_spec (db : MagicLinksTable) (t : String)
    (now : Int) :
    ((∃ e db', verifyMagicLink db t now = .error (e, db')) ↔
      findByToken db t = none ∨
        ∃ row, findByToken db t = some row ∧ row.expires_at < now) ∧
    (findByToken db t = none →
      verifyMagicLink db t now = .error (.invalidOrExpired, db)) ∧
    (∀ row, findByToken db t = some row → row.expires_at < now →
      verifyMagicLink db t now = .error (.expired, deleteByToken db t)) := by
  refine ⟨⟨?_, ?_⟩, ?_, ?_⟩
  · rintro ⟨e, db', h⟩
    simp only [verifyMagicLink] at h
    split at h
    next hf => exact Or.inl hf
    next row hf =>
      refine Or.inr ⟨row, hf, ?_⟩
      by_contra hexp
      rw [if_neg hexp] at h
      simp at h
  · rintro (hf | ⟨row, hf, hexp⟩)
    · exact ⟨.invalidOrExpired, db, by simp [verifyMagicLink, hf]⟩
    · exact ⟨.expired, deleteByToken db t, by simp [verifyMagicLink, hf, hexp]⟩
  · intro hf
    simp [verifyMagicLink, hf]
  · intro row hf hexp
    simp [verifyMagicLink, hf, hexp]

theorem verifyMagicLink_error_spec_witness :
    verifyMagicLink [] "t" 0 = .error (.invalidOrExpired, []) :=
  (verifyMagicLink_error_spec [] "t" 0).2.1 rfl

/-- C3: Magic-link storage and expiry window: `sendCustomMagicLink email`
inserts exactly one `magic_links` row containing the fresh 32-character
token, the email, the current reading style, and an `expires_at` equal to
the send time plus exactly 15 minutes (900000 milliseconds); consequently a
token verified within 15 minutes of sending is not treated as expired. -/
theorem sendCustomMagicLink_spec (db : MagicLinksTable) (bytes : List Nat)
    (email style : String) (now : Int) :
    sendCustomMagicLink db bytes email style now
      = (generateRandomToken 32 bytes,
         db ++ [⟨generateRandomToken 32 bytes, email, style, now + 900000⟩]) ∧
    (sendCustomMagicLink db bytes email style now).2.length
      = db.length + 1 ∧
    (generateRandomToken 32 bytes).length = 32 ∧
    (∀ c ∈ (generateRandomToken 32 bytes).data, c ∈ tokenChars) ∧
    fifteenMinutesMs = 900000 ∧
    (∀ vNow : Int, (∀ r ∈ db, r.token ≠ generateRandomToken 32 bytes) →
      vNow ≤ now + 900000 →
      verifyMagicLink
          (db ++ [⟨generateRandomToken 32 bytes, email, style, now + 900000⟩])
          (generateRandomToken 32 bytes) vNow
        = .ok (⟨generateRandomToken 32 bytes, email, style, now + 900000⟩,
            deleteByToken
              (db ++ [⟨generateRandomToken 32 bytes, email, style,
                now + 900000⟩])
              (generateRandomToken 32 bytes))) := by
  have hms : fifteenMinutesMs = 900000 := by norm_num [fifteenMinutesMs]
  refine ⟨?_, ?_, generateRandomToken_length 32 bytes,
    fun c hc => generateRandomToken_chars 32 bytes c hc, hms, ?_⟩
  · simp [sendCustomMagicLink, hms]
  · simp [sendCustomMagicLink]
  · intro vNow hfresh hle
    have hfind : findByToken
        (db ++ [⟨generateRandomToken 32 bytes, email, style, now + 900000⟩])
        (generateRandomToken 32 bytes)
        = some ⟨generateRandomToken 32 bytes, email, style, now + 900000⟩ :=
      findByToken_append_fresh db _ _ hfresh rfl
    have hnotexp : ¬ ((now : Int) + 900000 < vNow) := by omega
    simp [verifyMagicLink, hfind, hnotexp]

theorem sendCustomMagicLink_spec_witness :
    verifyMagicLink
        ([] ++ [⟨generateRandomToken 32 [], "a@b.c", "enjoy", 0 + 900000⟩])
        (generateRandomToken 32 []) 0
      = .ok (⟨generateRandomToken 32 [], "a@b.c", "enjoy", 0 + 900000⟩,
          deleteByToken
            ([] ++ [⟨generateRandomToken 32 [], "a@b.c", "enjoy",
              0 + 900000⟩])
            (generateRandomToken 32 [])) :=
  (sendCustomMagicLink_spec [] [] "a@b.c" "enjoy" 0).2.2.2.2.2 0
    (by simp) (by norm_num)

/-- C4: Magic-link token generation: for every non-negative length `n`,
`generateRandomToken n` returns a string of exactly `n` characters, each
drawn from the 62-character alphabet
`'ABCDEFGHIJKLMNOPQRSTUVWXYZabcdefghijklmnopqrstuvwxyz0123456789'`, and
indexing into the alphabet by a random byte modulo 62 never goes out of
bounds. -/
theorem generateRandomToken_spec (n : Nat) (array : List Nat) :
    (generateRandomToken n array).length = n ∧
    (∀ c ∈ (generateRandomToken n array).data, c ∈ tokenChars) ∧
    tokenChars.length = 62 ∧
    (∀ i : Nat, array.getD i 0 % tokenChars.length < tokenChars.length) :=
  ⟨generateRandomToken_length n array,
   fun c hc => generateRandomToken_chars n array c hc,
   tokenChars_length,
   fun _ => Nat.mod_lt _ (by decide)⟩

theorem generateRandomToken_spec_witness :
    (generateRandomToken 3 [0, 61, 200]).length = 3 ∧
    'A' ∈ tokenChars :=
  ⟨(generateRandomToken_spec 3 [0, 61, 200]).1,
   (generateRandomToken_spec 3 [0, 61, 200]).2.1 'A' (by decide)⟩

/-- C5 (counterexample): the claim "whenever `news_device_id` is already
set, `ensureDeviceId` leaves localStorage unchanged and issues no network
request; when absent, afterwards the key holds a server id or a
`news-local-` id" fails at the concrete state where the key is set to the
empty string and the server replies without `success`: the key counts as
set, yet a network request is issued; and in the absent-key state the same
server reply leaves the key unset. -/
theorem ensureDeviceId_claim_counterexample :
    lsGet [("news_device_id", "")] "news_device_id" = some "" ∧
    (ensureDeviceId [("news_device_id", "")] (.ok false none) "x").2 = true ∧
    lsGet (ensureDeviceId [] (.ok false none) "x").1 "news_device_id"
      = none := by
  refine ⟨rfl, rfl, rfl⟩

/-- C5 (amended): when `news_device_id` holds a nonempty value,
`ensureDeviceId` leaves localStorage entirely unchanged and issues no
network request.  When the stored value is falsy (absent or empty) a
request is issued, and: the key is set to the server-provided id when the
response reports `success` with a nonempty `device_id`; the key is set to a
locally generated id with the `news-local-` head when the call throws; and
localStorage is left unchanged when the response lacks `success` or a
usable `device_id`. -/
theorem ensureDeviceId_spec (store : Store) (outcome : FetchOutcome)
    (suffix : String) :
    (strTruthy (lsGet store "news_device_id") = true →
      ensureDeviceId store outcome suffix = (store, false)) ∧
    (strTruthy (lsGet store "news_device_id") = false →
      (∀ d, outcome = .ok true (some d) → d ≠ "" →
        ensureDeviceId store outcome suffix
          = (lsSet store "news_device_id" d, true)) ∧
      (outcome = .thrown →
        ensureDeviceId store outcome suffix
          = (lsSet store "news_device_id" ("news-local-" ++ suffix), true)) ∧
      (∀ success did, outcome = .ok success did →
        (success && strTruthy did) = false →
        ensureDeviceId store outcome suffix = (store, true))) := by
  constructor
  · intro h
    simp [ensureDeviceId, h]
  · intro h
    refine ⟨?_, ?_, ?_⟩
    · rintro d rfl hd
      have htd : strTruthy (some d) = true := by simp [strTruthy, hd]
      simp [ensureDeviceId, h, htd]
    · rintro rfl
      simp [ensureDeviceId, h]
    · rintro success did rfl hfalse
      simp [ensureDeviceId, h, hfalse]

theorem ensureDeviceId_spec_witness :
    ensureDeviceId [("news_device_id", "abc")] .thrown "s"
      = ([("news_device_id", "abc")], false) ∧
    ensureDeviceId [] .thrown "s"
      = (lsSet [] "news_device_id" ("news-local-" ++ "s"), true) :=
  ⟨(ensureDeviceId_spec [("news_device_id", "abc")] .thrown "s").1 rfl,
   ((ensureDeviceId_spec [] .thrown "s").2 rfl).2.1 rfl⟩

/-- C6: Local stats persistence round-trip: for every stats object whose
values survive JSON serialization (`parse (stringify stats) = some stats`,
with a non-empty serialized form), calling `saveStats` and then `loadStats`
restores a stats object equal to the saved one — the stats travel through
the localStorage key `news_stats` — in both the custom-backend and the
Supabase variants. -/
theorem stats_roundtrip (stringify : Json → String)
    (parse : String → Option Json) (store store2 : Store)
    (fields : List (String × Json))
    (hrt : parse (stringify (Json.obj fields)) = some (Json.obj fields))
    (hne : stringify (Json.obj fields) ≠ "") :
    loadStats parse (saveStats stringify store (Json.obj fields))
      = some (Json.obj fields) ∧
    loadStatsSupabase parse
        (saveStatsSupabase stringify store2 (Json.obj fields))
      = Json.obj fields := by
  constructor
  · simp [loadStats, saveStats, lsGet_lsSet_same, hne, hrt]
  · simp [loadStatsSupabase, saveStatsSupabase, jsTruthyJson,
      lsGet_lsSet_same, hne, hrt]

theorem stats_roundtrip_witness :
    loadStats (fun _ => some (Json.obj []))
        (saveStats (fun _ => "s") [] (Json.obj []))
      = some (Json.obj []) ∧
    loadStatsSupabase (fun _ => some (Json.obj []))
        (saveStatsSupabase (fun _ => "s") [] (Json.obj []))
      = Json.obj [] :=
  stats_roundtrip (fun _ => "s") (fun _ => some (Json.obj [])) [] [] []
    rfl (by simp)

theorem objGet_objSet (fields : List (String × Json)) (k : String)
    (v : Json) : objGet (objSet fields k v) k = some v := by
  induction fields with
  | nil => simp [objSet, objGet]
  | cons e rest ih =>
    by_cases h : e.1 = k
    · simp [objSet, objGet, h]
    · simp [objSet, objGet, h, ih]

/-- C7: Quiz statistics recording: for every `articleId`, `score` and
`total` with `total > 0`, `trackQuizCompletion articleId score total`
stores under stats key `'quiz_' ++ articleId` a record whose `score` and
`total` fields equal the arguments and whose `percentage` field equals
`Math.round (100 * score / total)`, and persists the updated stats to
localStorage under `news_stats`. -/
theorem trackQuizCompletion_spec (stringify : Json → String) (store : Store)
    (fields : List (String × Json)) (articleId : String)
    (score total nowMs : ℚ) (_htotal : 0 < total) :
    ∃ fields',
      trackQuizCompletion stringify store (Json.obj fields) articleId
          score total nowMs
        = (Json.obj fields',
           lsSet store "news_stats" (stringify (Json.obj fields'))) ∧
      objGet fields' (quizKey articleId)
        = some (Json.obj
            [ ("score", Json.num score)
            , ("total", Json.num total)
            , ("percentage", Json.num (jsRound (100 * score / total)))
            , ("timestamp", Json.num nowMs) ]) := by
  have hq : score / total * 100 = 100 * score / total := by ring
  refine ⟨objSet fields (quizKey articleId)
    (Json.obj
      [ ("score", Json.num score)
      , ("total", Json.num total)
      , ("percentage", Json.num (jsRound (100 * score / total)))
      , ("timestamp", Json.num nowMs) ]), ?_, ?_⟩
  · simp [trackQuizCompletion, saveStats, hq]
  · exact objGet_objSet _ _ _

theorem trackQuizCompletion_spec_witness :
    ∃ fields',
      trackQuizCompletion (fun _ => "s") [] (Json.obj []) "a" 1 2 0
        = (Json.obj fields',
           lsSet [] "news_stats" ((fun _ : Json => "s") (Json.obj fields'))) ∧
      objGet fields' (quizKey "a")
        = some (Json.obj
            [ ("score", Json.num 1)
            , ("total", Json.num 2)
            , ("percentage", Json.num (jsRound (100 * 1 / 2)))
            , ("timestamp", Json.num 0) ]) :=
  trackQuizCompletion_spec (fun _ => "s") [] [] "a" 1 2 0 (by norm_num)

/-- C8: After a successful `deleteSubscription`, the localStorage keys
under which the manager persists credentials — `news_user_id`,
`news_user_token`, `news_user_name`, `news_reading_style` and
`news_device_id` — are left unchanged: the success-path cleanup removes
only the un-prefixed keys `user_id`, `bootstrap_token`, `user_name`,
`reading_style`, `device_id` plus `word_` / `quiz_` / `article_read_`
stats keys, so stored credentials survive and `isRegistered` is still true
after the page reloads. -/
theorem deleteSubscription_preserves_credentials (store : Store) :
    (∀ k, k ∈ ["news_user_id", "news_user_token", "news_user_name",
        "news_reading_style", "news_device_id"] →
      lsGet (deleteSubscriptionClear store) k = lsGet store k) ∧
    (strTruthy (lsGet store "news_user_id") = true →
      strTruthy (lsGet store "news_user_token") = true →
      isRegistered (loadUserData (deleteSubscriptionClear store)) = true) := by
  have hkeep : ∀ k, k ≠ "user_id" → k ≠ "bootstrap_token" →
      k ≠ "user_name" → k ≠ "reading_style" → k ≠ "device_id" →
      statsKeyPred k = false →
      lsGet (deleteSubscriptionClear store) k = lsGet store k := by
    intro k h1 h2 h3 h4 h5 hsk
    simp only [deleteSubscriptionClear]
    rw [lsGet_filter_of_pred_true _ (fun x => !statsKeyPred x) k
        (by simp [hsk]),
      lsGet_lsRemove_ne _ _ _ h5, lsGet_lsRemove_ne _ _ _ h4,
      lsGet_lsRemove_ne _ _ _ h3, lsGet_lsRemove_ne _ _ _ h2,
      lsGet_lsRemove_ne _ _ _ h1]
  have hnews : ∀ k, k ∈ ["news_user_id", "news_user_token",
      "news_user_name", "news_reading_style", "news_device_id"] →
      lsGet (deleteSubscriptionClear store) k = lsGet store k := by
    intro k hk
    fin_cases hk <;>
      exact hkeep _ (by decide) (by decide) (by decide) (by decide)
        (by decide) (by decide)
  refine ⟨hnews, ?_⟩
  intro hid htok
  have h1 := hnews "news_user_id" (by simp)
  have h2 := hnews "news_user_token" (by simp)
  simp [isRegistered, loadUserData, h1, h2, hid, htok]

theorem deleteSubscription_preserves_credentials_witness :
    lsGet (deleteSubscriptionClear
        [("news_user_id", "u"), ("news_user_token", "t")]) "news_user_id"
      = lsGet [("news_user_id", "u"), ("news_user_token", "t")]
          "news_user_id" ∧
    isRegistered (loadUserData (deleteSubscriptionClear
        [("news_user_id", "u"), ("news_user_token", "t")])) = true :=
  ⟨(deleteSubscription_preserves_credentials
      [("news_user_id", "u"), ("news_user_token", "t")]).1
      "news_user_id" (by simp),
   (deleteSubscription_preserves_credentials
      [("news_user_id", "u"), ("news_user_token", "t")]).2 rfl rfl⟩

/-- C9: Default reading style: whenever no reading-style preference is
stored (key `news_reading_style` absent), the manager's reading style is
`'enjoy'` — `loadUserData` falls back to `'enjoy'` in the custom variant,
and the `SupabaseUserManager` constructor initializes `readingStyle` to
`'enjoy'`. -/
theorem default_readingStyle (store : Store)
    (h : lsGet store "news_reading_style" = none) :
    (loadUserData store).readingStyle = "enjoy" ∧
    supabaseConstructorState.readingStyle = "enjoy" := by
  constructor
  · simp [loadUserData, jsOrDefault, h]
  · rfl

theorem default_readingStyle_witness :
    (loadUserData []).readingStyle = "enjoy" ∧
    supabaseConstructorState.readingStyle = "enjoy" :=
  default_readingStyle [] rfl

/-- C10: Confirmed logout in the custom-backend variant clears the entire
localStorage and sessionStorage, so after logout no key remains — in
particular neither the anonymous device id `news_device_id` nor the usage
statistics `news_stats`; a cancelled confirmation leaves both storages
unchanged. -/
theorem logout_spec (ls ss : Store) :
    logout true ls ss = ([], []) ∧
    lsGet (logout true ls ss).1 "news_device_id" = none ∧
    lsGet (logout true ls ss).1 "news_stats" = none ∧
    logout false ls ss = (ls, ss) := by
  refine ⟨rfl, rfl, rfl, rfl⟩
